import Mathlib

/-!
# Consumption Prediction & Confirmation Engine — verification development

Shallow embedding of the consumption-prediction core of the
`kitchen-management` repository:

* `src/utils/consumption_predictor.py` (`ConsumptionPredictor`:
  `get_predicted_consumption_days`, `_get_adaptive_learning_rate`,
  `_get_confidence_level`, `update_consumption_pattern`,
  `log_consumption_event`, `create_pending_confirmation`,
  `check_and_deplete_items`),
* `src/utils/consumption_baselines.py` (`get_default_consumption_days`),
* `src/api_routes/consumption_prediction_routes.py`
  (`respond_to_confirmation`).

Modelling conventions:

* Python floats are modelled as `ℚ`; `datetime` values as `ℚ` measured in
  days, so `timedelta.days` becomes `Int.floor` of the difference.
* Python's `round` (banker's rounding, round half to even) is `pyRound`.
* Database tables are lists of records inside a `DBState`; an SQLAlchemy
  `session.commit()` is one atomic replacement of the whole `DBState`,
  and an operation's observable behaviour is the sequence of committed
  states it produces.
* The in-memory baseline cache (loaded from the `ConsumptionBaseline`
  table at process start; an identically-shaped Python dictionary is the
  fallback when the cache is empty) is the `baselines` association list.
* `uuid.uuid4().hex` is modelled by a fresh-name counter; nothing below
  depends on the concrete identifiers.
* Exceptions raised by database calls inside the scan
  (`get_predicted_consumption_days` at line 557, outside the per-item
  `try`, and `create_pending_confirmation` at line 576, inside it) are
  modelled by fault-injection oracles `failPredict` / `failCreate`;
  `noFault` is the fault-free instantiation.
-/

set_option allowUnsafeReducibility true in
attribute [semireducible] Rat.add Rat.sub Rat.mul Rat.div Rat.inv

/-- Python `round` on a real value: round half to even (banker's rounding),
as used by `int(round(pattern.personalized_days))`. -/
def pyRound (q : ℚ) : ℤ :=
  let f : ℤ := Int.floor q
  let frac : ℚ := q - f
  if frac < 1/2 then f
  else if 1/2 < frac then f + 1
  else if f % 2 = 0 then f else f + 1

/-- ASCII lower-casing of one character (`str.lower`; item names here are
ASCII grocery words). -/
def lowerChar (c : Char) : Char :=
  if 'A' ≤ c ∧ c ≤ 'Z' then Char.ofNat (c.toNat + 32) else c

/-- Embeds `str.lower()`. -/
def pyLower (s : String) : String := String.mk (s.data.map lowerChar)

/-- Whitespace for `str.strip()`. -/
def isSpaceChar (c : Char) : Bool := c = ' ' || c = '\t' || c = '\n' || c = '\r'

/-- Embeds `str.strip()`. -/
def pyStrip (s : String) : String :=
  String.mk (((s.data.dropWhile isSpaceChar).reverse.dropWhile isSpaceChar).reverse)

/-- Embeds `item_name.strip().lower()` — normalisation applied by the predictor. -/
def normName (s : String) : String := pyLower (pyStrip s)

/-- One row of `kitchen_consumption_patterns`
(`KitchenConsumptionPattern` in `src/models.py`). -/
structure Pattern where
  kitchen_id : ℤ
  item_name : String
  personalized_days : ℚ
  sample_count : ℕ
  consumption_rate : Option ℚ
  unit : Option String
  confidence : String
  learning_rate : ℚ
  last_consumption_date : Option ℚ
  updated_at : Option ℚ
  deriving DecidableEq

/-- Embeds `ConsumptionPredictor._get_confidence_level`. -/
def getConfidenceLevel (sample_count : ℕ) : String :=
  if sample_count < 3 then "low"
  else if sample_count < 10 then "medium"
  else "high"

/-- Embeds `ConsumptionPredictor._get_adaptive_learning_rate` (the `sample_count`
argument is unused in the source as well). -/
def getAdaptiveLearningRate (confidence : String) : ℚ :=
  if confidence = "low" then 3/10
  else if confidence = "medium" then 1/2
  else 7/10

/-- Embeds `self.min_samples_for_personalization` set in
`ConsumptionPredictor.__init__`. -/
def minSamplesForPersonalization : ℕ := 2

/-- Embeds `session.query(KitchenConsumptionPattern).filter(kitchen_id == …,
item_name == …).first()` — `name` must already be normalised. -/
def findPattern (ps : List Pattern) (kid : ℤ) (name : String) : Option Pattern :=
  ps.find? (fun p => p.kitchen_id = kid ∧ p.item_name = name)

/-- In-place mutation of the first row matching the key, as SQLAlchemy
does when the fetched `pattern` object is modified and committed. -/
def updateFirstPattern (ps : List Pattern) (kid : ℤ) (name : String)
    (f : Pattern → Pattern) : List Pattern :=
  match ps with
  | [] => []
  | p :: rest =>
    if p.kitchen_id = kid ∧ p.item_name = name then f p :: rest
    else p :: updateFirstPattern rest kid name f

/-- Python truthiness of the optional float `consumption_rate`
(`if consumption_rate:`): `None` and `0.0` are falsy. -/
def optTruthy (a : Option ℚ) : Bool :=
  match a with
  | some r => r ≠ 0
  | none => false

/-- Embeds `pattern.consumption_rate or consumption_rate` — Python `or` takes the
right operand when the left is `None` or `0.0`. -/
def pyOrRate (a : Option ℚ) (b : ℚ) : ℚ :=
  match a with
  | some r => if r = 0 then b else r
  | none => b

/-- Embeds `quantity / days_lasted` guarded by
`except (ValueError, TypeError, ZeroDivisionError)`. -/
def safeRate (quantity : ℚ) (days_lasted : ℤ) : Option ℚ :=
  if days_lasted = 0 then none else some (quantity / days_lasted)

/-- The mutation `update_consumption_pattern` applies to an existing
pattern row (lines 183–208 of `consumption_predictor.py`). -/
def updatedPattern (p : Pattern) (days_lasted : ℤ) (consumption_rate : Option ℚ)
    (unit : Option String) (now : ℚ) : Pattern :=
  let confidence := getConfidenceLevel (p.sample_count + 1)
  let learning_rate := getAdaptiveLearningRate confidence
  let new_avg := learning_rate * (days_lasted : ℚ) + (1 - learning_rate) * p.personalized_days
  let base : Pattern :=
    { p with
      personalized_days := new_avg
      sample_count := p.sample_count + 1
      last_consumption_date := some now
      confidence := confidence
      learning_rate := learning_rate
      updated_at := some now }
  match consumption_rate with
  | some cr =>
    if cr ≠ 0 then
      let old_rate := pyOrRate p.consumption_rate cr
      let new_rate := learning_rate * cr + (1 - learning_rate) * old_rate
      { base with consumption_rate := some new_rate, unit := unit }
    else base
  | none => base

/-- Embeds `ConsumptionPredictor.update_consumption_pattern` acting on the
`kitchen_consumption_patterns` table. `quantity = none` models the Python
default `quantity=None`; `if quantity and quantity > 0` is `q > 0` since
`0` is falsy. -/
def update_consumption_pattern (ps : List Pattern) (kitchen_id : ℤ)
    (item_name : String) (days_lasted : ℤ) (quantity : Option ℚ)
    (unit : Option String) (now : ℚ) : List Pattern :=
  let key := normName item_name
  let consumption_rate : Option ℚ :=
    match quantity with
    | some q => if q > 0 then safeRate q days_lasted else none
    | none => none
  match findPattern ps kitchen_id key with
  | some _ =>
    updateFirstPattern ps kitchen_id key
      (fun p => updatedPattern p days_lasted consumption_rate unit now)
  | none =>
    ps ++ [{ kitchen_id := kitchen_id
             item_name := key
             personalized_days := (days_lasted : ℚ)
             sample_count := 1
             consumption_rate := consumption_rate
             unit := unit
             confidence := getConfidenceLevel 1
             learning_rate := getAdaptiveLearningRate (getConfidenceLevel 1)
             last_consumption_date := some now
             updated_at := some now }]

/-- Embeds `get_default_consumption_days` in `consumption_baselines.py`. -/
def get_default_consumption_days : ℤ := 14

/-- The baseline store: the in-memory `_baseline_cache`
(`item_name ↦ avg_consumption_days`); dictionary `get`. -/
def baselineLookup (bs : List (String × ℤ)) (name : String) : Option ℤ :=
  (bs.find? (fun b => b.1 = name)).map (·.2)

/-- Embeds `ConsumptionPredictor.get_predicted_consumption_days`. -/
def get_predicted_consumption_days (ps : List Pattern) (bs : List (String × ℤ))
    (kitchen_id : ℤ) (item_name : String) : ℤ :=
  let key := normName item_name
  match findPattern ps kitchen_id key with
  | some p =>
    if p.sample_count ≥ minSamplesForPersonalization then
      pyRound p.personalized_days
    else
      match baselineLookup bs key with
      | some d => d
      | none => get_default_consumption_days
  | none =>
    match baselineLookup bs key with
    | some d => d
    | none => get_default_consumption_days

example : pyRound (5/2 : ℚ) = 2 := by decide
example : pyRound (7/2 : ℚ) = 4 := by decide
example : pyRound (27/10 : ℚ) = 3 := by decide
example : normName "  Milk " = "milk" := by decide
example :
    get_predicted_consumption_days [] [("milk", 7)] 1 "Milk" = 7 := by decide

/-- Embeds `timedelta.days` of `later - earlier`: floor of the difference in days
(timestamps are rationals measured in days). -/
def timedeltaDays (later earlier : ℚ) : ℤ := Int.floor (later - earlier)

/-- A row of `kitchens` (only the fields the engine reads). -/
structure KitchenRec where
  id : ℤ
  host_id : ℤ
  kitchen_name : String
  deriving DecidableEq

/-- A row of `kitchen_items` (the fields the engine reads). -/
structure InvItem where
  kitchen_id : ℤ
  item_id : String
  name : String
  quantity : ℚ
  unit : String
  added_at : Option ℚ
  deriving DecidableEq

/-- A row of `pending_confirmations` (`PendingConfirmation` in
`src/models.py`). -/
structure Confirmation where
  confirmation_id : String
  kitchen_id : ℤ
  item_id : String
  item_name : String
  quantity : ℚ
  unit : String
  added_at : Option ℚ
  predicted_depletion_date : ℚ
  status : String
  expires_at : ℚ
  created_at : ℚ
  confirmed_at : Option ℚ
  actual_quantity_remaining : Option ℚ
  deriving DecidableEq

/-- A row of `consumption_events` (`ConsumptionEvent` in `src/models.py`),
the depletion-event log. -/
structure ConsumptionEventRec where
  kitchen_id : ℤ
  item_id : String
  item_name : String
  quantity : ℚ
  unit : String
  added_at : ℚ
  depleted_at : ℚ
  days_lasted : ℤ
  consumption_rate : Option ℚ
  method : String
  deriving DecidableEq

/-- A row of the `MyList` shopping list (the fields the confirmed path
writes). -/
structure ShoppingItem where
  name : String
  quantity : ℚ
  unit : String
  kitchen_id : ℤ
  auto_added : Bool
  deriving DecidableEq

/-- The committed database state: one field per table the engine touches,
plus the baseline store. -/
structure DBState where
  kitchens : List KitchenRec
  members : List (ℤ × ℤ)
  items : List InvItem
  patterns : List Pattern
  events : List ConsumptionEventRec
  confirmations : List Confirmation
  shopping : List ShoppingItem
  baselines : List (String × ℤ)
  deriving DecidableEq

/-- The `item_data` dictionary handed to `log_consumption_event`. -/
structure ItemData where
  item_id : String
  name : String
  quantity : ℚ
  unit : String
  added_at : Option ℚ
  deriving DecidableEq

/-- The `ConsumptionEvent` row that `log_consumption_event` constructs
(lines 294–320): `days_lasted` is the floored whole-day difference,
clamped below at 1, and the rate is `quantity / days_lasted`. -/
def mkConsumptionEvent (kitchen_id : ℤ) (idata : ItemData)
    (added depleted_at : ℚ) (method : String) : ConsumptionEventRec :=
  let days0 := timedeltaDays depleted_at added
  let days_lasted := if days0 < 1 then 1 else days0
  { kitchen_id := kitchen_id
    item_id := idata.item_id
    item_name := pyLower idata.name
    quantity := idata.quantity
    unit := idata.unit
    added_at := added
    depleted_at := depleted_at
    days_lasted := days_lasted
    consumption_rate := safeRate idata.quantity days_lasted
    method := method }

/-- Embeds `ConsumptionPredictor.log_consumption_event`, as the sequence of
database states it commits (each `session.commit()` on its own session is
one commit).  It returns without committing anything when `added_at` is
missing or the quantity is not positive; otherwise it commits the appended
`ConsumptionEvent` and then (via `update_consumption_pattern`, which
commits on yet another session) the pattern update. -/
def log_consumption_event (db : DBState) (kitchen_id : ℤ) (idata : ItemData)
    (depleted_at now : ℚ) (method : String) : List DBState :=
  match idata.added_at with
  | none => []
  | some added =>
    if idata.quantity ≤ 0 then []
    else
      let days0 := timedeltaDays depleted_at added
      let days_lasted := if days0 < 1 then 1 else days0
      let ev : ConsumptionEventRec :=
        mkConsumptionEvent kitchen_id idata added depleted_at method
      let c1 : DBState := { db with events := db.events ++ [ev] }
      let c2 : DBState :=
        { c1 with patterns :=
            (update_consumption_pattern c1.patterns kitchen_id idata.name
              days_lasted (some idata.quantity) (some idata.unit) now) }
      [c1, c2]

/-- Embeds `session.query(PendingConfirmation).filter(confirmation_id == …,
status == 'pending').first()`. -/
def findPendingConfirmation (cs : List Confirmation) (cid : String) :
    Option Confirmation :=
  cs.find? (fun c => c.confirmation_id = cid ∧ c.status = "pending")

/-- In-place mutation of the row `findPendingConfirmation` fetched. -/
def updateFirstConfirmation (cs : List Confirmation) (cid : String)
    (f : Confirmation → Confirmation) : List Confirmation :=
  match cs with
  | [] => []
  | c :: rest =>
    if c.confirmation_id = cid ∧ c.status = "pending" then f c :: rest
    else c :: updateFirstConfirmation rest cid f

/-- The `item_data` dictionary the confirmed branch builds from the
confirmation row. -/
def confItemData (conf : Confirmation) : ItemData :=
  { item_id := conf.item_id
    name := conf.item_name
    quantity := conf.quantity
    unit := conf.unit
    added_at := conf.added_at }

/-- The auto-added shopping-list row the confirmed branch inserts. -/
def confShoppingItem (conf : Confirmation) : ShoppingItem :=
  { name := conf.item_name
    quantity := conf.quantity
    unit := conf.unit
    kitchen_id := conf.kitchen_id
    auto_added := true }

/-- The in-place mutation the confirmed branch applies to the fetched
confirmation row (`status = 'confirmed'`, `confirmed_at = now`). -/
def confirmedConfUpdate (now : ℚ) (c : Confirmation) : Confirmation :=
  { c with status := "confirmed", confirmed_at := some now }

/-- The in-place mutation the denied branch applies to the fetched
confirmation row: `status = 'denied'`, `confirmed_at = now`, and
`actual_quantity_remaining` stored only when provided. -/
def deniedConfUpdate (aq : Option ℚ) (now : ℚ) (c : Confirmation) : Confirmation :=
  { c with
    status := "denied",
    confirmed_at := some now,
    actual_quantity_remaining :=
      match aq with
      | some q => some q
      | none => c.actual_quantity_remaining }

/-- Embeds `respond_to_confirmation` in `consumption_prediction_routes.py`:
returns the HTTP status code and the sequence of committed database
states (empty on the validation/404/403 paths, which commit nothing). -/
def respond_to_confirmation (db : DBState) (user_id : ℤ)
    (confirmation_id : String) (response : String)
    (actual_quantity : Option ℚ) (now : ℚ) : ℕ × List DBState :=
  if confirmation_id = "" then (400, [])
  else if ¬ (response = "confirmed" ∨ response = "denied") then (400, [])
  else
    match findPendingConfirmation db.confirmations confirmation_id with
    | none => (404, [])
    | some conf =>
      match db.kitchens.find? (fun k => k.id = conf.kitchen_id) with
      | none => (404, [])
      | some kitchen =>
        if ¬ (kitchen.host_id = user_id ∨ (conf.kitchen_id, user_id) ∈ db.members) then
          (403, [])
        else if response = "confirmed" then
          let item_removed :=
            (db.items.filter (fun i =>
              i.kitchen_id = conf.kitchen_id ∧ i.item_id = conf.item_id)).length
          if item_removed > 0 then
            let idata : ItemData := confItemData conf
            let logCommits :=
              log_consumption_event db conf.kitchen_id idata now now "confirmed"
            let base := logCommits.getLastD db
            let shopping_item : ShoppingItem := confShoppingItem conf
            let final : DBState :=
              { base with
                items := db.items.filter (fun i =>
                  ¬ (i.kitchen_id = conf.kitchen_id ∧ i.item_id = conf.item_id)),
                shopping := base.shopping ++ [shopping_item],
                confirmations :=
                  updateFirstConfirmation base.confirmations confirmation_id
                    (confirmedConfUpdate now) }
            (200, logCommits ++ [final])
          else (404, [])
        else
          let final : DBState :=
            { db with confirmations :=
                (updateFirstConfirmation db.confirmations confirmation_id
                  (deniedConfUpdate actual_quantity now)) }
          (200, [final])

/-- The committed database state after `respond_to_confirmation` (the last
commit, or the unchanged state when nothing was committed). -/
def respondFinal (db : DBState) (user_id : ℤ) (confirmation_id : String)
    (response : String) (actual_quantity : Option ℚ) (now : ℚ) : DBState :=
  (respond_to_confirmation db user_id confirmation_id response actual_quantity now).2.getLastD db

/-- The scan's mutable state: the `summary` dictionary of
`check_and_deplete_items`, the prefetched `pending_lookup` set, the
confirmations created so far (each committed immediately by
`create_pending_confirmation`), and the fresh-name counter standing in
for `uuid.uuid4().hex`. -/
structure ScanState where
  kitchens_checked : ℕ
  items_checked : ℕ
  confirmations_created : ℕ
  confirmations_skipped : ℕ
  errors : List String
  pending : List (ℤ × String)
  newConfs : List Confirmation
  fresh : ℕ
  deriving DecidableEq

/-- Fault oracle returning `none` everywhere: no database call raises. -/
def noFault : ℤ → String → Option String := fun _ _ => none

/-- Sort key `lambda x: x.added_at or datetime.min` (items reaching the
sort always carry a timestamp, the grouping filtered the rest). -/
def itemLe (x y : InvItem) : Prop := x.added_at.getD 0 ≤ y.added_at.getD 0

instance : DecidableRel itemLe :=
  fun x y => inferInstanceAs (Decidable (x.added_at.getD 0 ≤ y.added_at.getD 0))

instance : IsTotal InvItem itemLe :=
  ⟨fun x y => le_total (x.added_at.getD 0) (y.added_at.getD 0)⟩

instance : IsTrans InvItem itemLe := ⟨fun _ _ _ h h' => le_trans h h'⟩

/-- Append an item to its (insertion-ordered) group, Python-dict style. -/
def addToGroup (gs : List (String × List InvItem)) (name : String)
    (it : InvItem) : List (String × List InvItem) :=
  match gs with
  | [] => [(name, [it])]
  | (m, g) :: rest =>
    if m = name then (m, g ++ [it]) :: rest
    else (m, g) :: addToGroup rest name it

/-- The `items_by_name` grouping of `check_and_deplete_items` (lines
517–529): group by lower-cased name, skipping items with an empty name,
no `added_at`, or non-positive quantity. -/
def groupItemsByName (items : List InvItem) : List (String × List InvItem) :=
  items.foldl
    (fun gs it =>
      let name := pyLower it.name
      if name = "" then gs
      else if it.added_at = none ∨ it.quantity ≤ 0 then gs
      else addToGroup gs name it)
    []

/-- Embeds `ConsumptionPredictor.create_pending_confirmation`: the row it inserts
and commits.  The scan passes the current time as
`predicted_depletion_date`; `expires_at` is 7 days later; `fresh` stands
in for `uuid.uuid4().hex`. -/
def create_pending_confirmation (kitchen_id : ℤ) (idata : ItemData)
    (predicted_depletion_date : ℚ) (now : ℚ) (fresh : ℕ) : Confirmation :=
  { confirmation_id := "conf-" ++ toString fresh
    kitchen_id := kitchen_id
    item_id := idata.item_id
    item_name := idata.name
    quantity := idata.quantity
    unit := idata.unit
    added_at := idata.added_at
    predicted_depletion_date := predicted_depletion_date
    status := "pending"
    expires_at := predicted_depletion_date + 7
    created_at := now
    confirmed_at := none
    actual_quantity_remaining := none }

/-- Processing of one name-group (lines 536–597): count the group, sort by
`added_at`, evaluate only the oldest item, and request a confirmation when
it is due and none is pending.  `Except.error` is an exception escaping to
the scan-level handler; a `failCreate` fault is caught by the per-item
`try` and only recorded. -/
def stepGroup (patterns : List Pattern) (baselines : List (String × ℤ))
    (now : ℚ) (failPredict failCreate : ℤ → String → Option String)
    (kid : ℤ) (kname : String) (st : ScanState) (g : String × List InvItem) :
    Except ScanState ScanState :=
  let name := g.1
  let st := { st with items_checked := st.items_checked + g.2.length }
  match (List.insertionSort itemLe g.2).head? with
  | none => .ok st
  | some oldest =>
    match oldest.added_at with
    | none =>
      .error { st with errors := st.errors ++ ["AttributeError: added_at is None"] }
    | some added =>
      let days_elapsed := timedeltaDays now added
      match failPredict kid name with
      | some msg => .error { st with errors := st.errors ++ [msg] }
      | none =>
        let predicted := min (get_predicted_consumption_days patterns baselines kid name) 90
        if days_elapsed ≥ predicted then
          if (kid, oldest.item_id) ∈ st.pending then
            .ok { st with confirmations_skipped := st.confirmations_skipped + 1 }
          else
            match failCreate kid oldest.item_id with
            | some msg =>
              .ok { st with errors := st.errors ++
                ["Error creating confirmation for '" ++ name ++ "' in kitchen '"
                  ++ kname ++ "': " ++ msg] }
            | none =>
              let conf : Confirmation :=
                create_pending_confirmation kid
                  { item_id := oldest.item_id
                    name := oldest.name
                    quantity := oldest.quantity
                    unit := oldest.unit
                    added_at := oldest.added_at }
                  now now st.fresh
              .ok { st with
                confirmations_created := st.confirmations_created + 1,
                pending := st.pending ++ [(kid, oldest.item_id)],
                newConfs := st.newConfs ++ [conf],
                fresh := st.fresh + 1 }
        else .ok st

/-- Processing of one kitchen (lines 501–597). -/
def stepKitchen (db : DBState) (now : ℚ)
    (failPredict failCreate : ℤ → String → Option String)
    (st : ScanState) (k : KitchenRec) : Except ScanState ScanState :=
  let st := { st with kitchens_checked := st.kitchens_checked + 1 }
  let kname := if k.kitchen_name = "" then "Unknown" else k.kitchen_name
  let items := db.items.filter (fun i => i.kitchen_id = k.id)
  (groupItemsByName items).foldlM
    (stepGroup db.patterns db.baselines now failPredict failCreate k.id kname) st

/-- Kitchens holding at least one inventory item (lines 473–477). -/
def kitchensWithItems (db : DBState) : List KitchenRec :=
  db.kitchens.filter (fun k => db.items.any (fun i => i.kitchen_id = k.id))

/-- The zeroed summary with the batch-prefetched pending lookup
(lines 464–496). -/
def initialScanState (db : DBState) (scope : List ℤ) : ScanState :=
  { kitchens_checked := 0
    items_checked := 0
    confirmations_created := 0
    confirmations_skipped := 0
    errors := []
    pending := (db.confirmations.filter
      (fun c => c.kitchen_id ∈ scope ∧ c.status = "pending")).map
      (fun c => (c.kitchen_id, c.item_id))
    newConfs := []
    fresh := 0 }

/-- The kitchen loop of `check_and_deplete_items`, inside the scan-level
`try`. -/
def scanBody (db : DBState) (now : ℚ)
    (failPredict failCreate : ℤ → String → Option String) :
    Except ScanState ScanState :=
  let ks := kitchensWithItems db
  ks.foldlM (stepKitchen db now failPredict failCreate)
    (initialScanState db (ks.map (·.id)))

/-- Embeds `ConsumptionPredictor.check_and_deplete_items`: the scan-level handler
catches any escaped exception, appends it to the summary's error list and
returns the summary built so far. -/
def check_and_deplete_items (db : DBState) (now : ℚ)
    (failPredict failCreate : ℤ → String → Option String) : ScanState :=
  match scanBody db now failPredict failCreate with
  | .ok st => st
  | .error st => st

/-- The committed database state after a scan: the confirmations created
by `create_pending_confirmation` (committed one by one); nothing else is
written. -/
def scanDB (db : DBState) (now : ℚ)
    (failPredict failCreate : ℤ → String → Option String) : DBState :=
  { db with confirmations :=
      db.confirmations ++ (check_and_deplete_items db now failPredict failCreate).newConfs }

/-! ## Helper lemmas about the Pattern Learner -/

lemma updatedPattern_sample_count (p : Pattern) (d : ℤ) (cr : Option ℚ)
    (u : Option String) (now : ℚ) :
    (updatedPattern p d cr u now).sample_count = p.sample_count + 1 := by
  unfold updatedPattern
  cases cr with
  | none => rfl
  | some r => by_cases hr : r ≠ 0 <;> simp [hr]

lemma updatedPattern_key (p : Pattern) (d : ℤ) (cr : Option ℚ)
    (u : Option String) (now : ℚ) :
    (updatedPattern p d cr u now).kitchen_id = p.kitchen_id ∧
    (updatedPattern p d cr u now).item_name = p.item_name := by
  unfold updatedPattern
  cases cr with
  | none => exact ⟨rfl, rfl⟩
  | some r => by_cases hr : r ≠ 0 <;> simp [hr]

lemma updatedPattern_learning_rate (p : Pattern) (d : ℤ) (cr : Option ℚ)
    (u : Option String) (now : ℚ) :
    (updatedPattern p d cr u now).learning_rate =
      getAdaptiveLearningRate (getConfidenceLevel (p.sample_count + 1)) := by
  unfold updatedPattern
  cases cr with
  | none => rfl
  | some r => by_cases hr : r ≠ 0 <;> simp [hr]

lemma updatedPattern_personalized_days (p : Pattern) (d : ℤ) (cr : Option ℚ)
    (u : Option String) (now : ℚ) :
    (updatedPattern p d cr u now).personalized_days =
      getAdaptiveLearningRate (getConfidenceLevel (p.sample_count + 1)) * (d : ℚ) +
        (1 - getAdaptiveLearningRate (getConfidenceLevel (p.sample_count + 1))) *
          p.personalized_days := by
  unfold updatedPattern
  cases cr with
  | none => rfl
  | some r => by_cases hr : r ≠ 0 <;> simp [hr]

lemma rate_tiers (n : ℕ) :
    getAdaptiveLearningRate (getConfidenceLevel n) =
      if n < 3 then (3/10 : ℚ) else if n < 10 then 1/2 else 7/10 := by
  unfold getConfidenceLevel getAdaptiveLearningRate
  by_cases h3 : n < 3 <;> by_cases h10 : n < 10 <;> simp [h3, h10]

lemma rate_tiers_pos (n : ℕ) :
    0 < getAdaptiveLearningRate (getConfidenceLevel n) ∧
      getAdaptiveLearningRate (getConfidenceLevel n) < 1 := by
  rw [rate_tiers]
  by_cases h3 : n < 3 <;> by_cases h10 : n < 10 <;> simp [h3, h10] <;> norm_num

lemma ema_between (r old d : ℚ) (h0 : 0 ≤ r) (h1 : r ≤ 1) :
    min old d ≤ r * d + (1 - r) * old ∧ r * d + (1 - r) * old ≤ max old d := by
  rcases le_total old d with h | h
  · rw [min_eq_left h, max_eq_right h]
    constructor
    · nlinarith [mul_nonneg h0 (sub_nonneg.2 h)]
    · nlinarith [mul_nonneg (sub_nonneg.2 h1) (sub_nonneg.2 h)]
  · rw [min_eq_right h, max_eq_left h]
    constructor
    · nlinarith [mul_nonneg (sub_nonneg.2 h1) (sub_nonneg.2 h)]
    · nlinarith [mul_nonneg h0 (sub_nonneg.2 h)]

lemma findPattern_updateFirst (kid : ℤ) (name : String) (f : Pattern → Pattern)
    (hf : ∀ q, (f q).kitchen_id = q.kitchen_id ∧ (f q).item_name = q.item_name) :
    ∀ (ps : List Pattern) (p : Pattern), findPattern ps kid name = some p →
      findPattern (updateFirstPattern ps kid name f) kid name = some (f p) := by
  intro ps
  induction ps with
  | nil => intro p h; simp [findPattern] at h
  | cons q rest ih =>
    intro p h
    by_cases hq : q.kitchen_id = kid ∧ q.item_name = name
    · have hp : p = q := by
        simp [findPattern, List.find?_cons, hq.1, hq.2] at h
        exact h.symm
      subst hp
      simp [updateFirstPattern, hq, findPattern, List.find?_cons,
        (hf p).1.trans hq.1, (hf p).2.trans hq.2]
    · have h' : findPattern rest kid name = some p := by
        rcases not_and_or.mp hq with hk | hn
        · simpa [findPattern, List.find?_cons, hk] using h
        · simpa [findPattern, List.find?_cons, hn] using h
      have := ih p h'
      rcases not_and_or.mp hq with hk | hn
      · simpa [updateFirstPattern, hq, findPattern, List.find?_cons, hk] using this
      · simpa [updateFirstPattern, hq, findPattern, List.find?_cons, hn] using this

/-! ## Claim C1 -/

/-- C1. For every update of an existing Pattern with observed
`daysLasted`, `update_consumption_pattern` increments `sample_count` by
exactly 1, derives the learning rate from the post-increment sample count
(0.3 if the new count is < 3, 0.5 if < 10, 0.7 otherwise), and sets
`personalized_days` to `rate * daysLasted + (1 - rate) * old_avg`; the new
average lies between the old `personalized_days` and `daysLasted`
inclusive. -/
theorem claim1_update_existing_pattern
    (ps : List Pattern) (kid : ℤ) (item : String) (days : ℤ)
    (q : Option ℚ) (u : Option String) (now : ℚ) (p : Pattern)
    (hfind : findPattern ps kid (normName item) = some p) :
    ∃ p', findPattern (update_consumption_pattern ps kid item days q u now)
        kid (normName item) = some p' ∧
      p'.sample_count = p.sample_count + 1 ∧
      p'.learning_rate = (if p.sample_count + 1 < 3 then (3/10 : ℚ)
        else if p.sample_count + 1 < 10 then 1/2 else 7/10) ∧
      p'.personalized_days =
        p'.learning_rate * (days : ℚ) + (1 - p'.learning_rate) * p.personalized_days ∧
      min p.personalized_days (days : ℚ) ≤ p'.personalized_days ∧
      p'.personalized_days ≤ max p.personalized_days (days : ℚ) := by
  set cr : Option ℚ :=
    match q with
    | some q' => if q' > 0 then safeRate q' days else none
    | none => none with hcr
  have hupd : update_consumption_pattern ps kid item days q u now =
      updateFirstPattern ps kid (normName item)
        (fun r => updatedPattern r days cr u now) := by
    simp only [update_consumption_pattern]
    rw [← hcr, hfind]
  refine ⟨updatedPattern p days cr u now, ?_, ?_, ?_, ?_, ?_⟩
  · rw [hupd]
    exact findPattern_updateFirst kid (normName item) _
      (fun r => updatedPattern_key r days cr u now) ps p hfind
  · exact updatedPattern_sample_count p days cr u now
  · rw [updatedPattern_learning_rate p days cr u now, rate_tiers]
  · rw [updatedPattern_personalized_days p days cr u now,
      updatedPattern_learning_rate p days cr u now]
  · rw [updatedPattern_personalized_days p days cr u now]
    have h := rate_tiers_pos (p.sample_count + 1)
    exact ema_between _ p.personalized_days (days : ℚ) (le_of_lt h.1) (le_of_lt h.2)

/-- Concrete pattern used to witness C1: the spec scenario with
`sample_count = 5`, `personalized_days = 6.0`, `daysLasted = 10`. -/
def c1pat : Pattern :=
  { kitchen_id := 1, item_name := "milk", personalized_days := 6,
    sample_count := 5, consumption_rate := none, unit := none,
    confidence := "medium", learning_rate := 1/2,
    last_consumption_date := none, updated_at := none }

/-- Witness for C1 at a concrete input. -/
theorem claim1_witness :
    ∃ p', findPattern (update_consumption_pattern [c1pat] 1 "milk" 10 none none 0)
        1 (normName "milk") = some p' ∧
      p'.sample_count = c1pat.sample_count + 1 ∧
      p'.learning_rate = (if c1pat.sample_count + 1 < 3 then (3/10 : ℚ)
        else if c1pat.sample_count + 1 < 10 then 1/2 else 7/10) ∧
      p'.personalized_days =
        p'.learning_rate * ((10 : ℤ) : ℚ) + (1 - p'.learning_rate) * c1pat.personalized_days ∧
      min c1pat.personalized_days ((10 : ℤ) : ℚ) ≤ p'.personalized_days ∧
      p'.personalized_days ≤ max c1pat.personalized_days ((10 : ℤ) : ℚ) :=
  claim1_update_existing_pattern [c1pat] 1 "milk" 10 none none 0 c1pat (by decide)

/-! ## Claim C2 -/

/-- C2. `get_predicted_consumption_days` returns
`round(personalized_days)` when a Pattern with
`sample_count ≥ 2` exists for the (kitchen, normalised item) key;
otherwise the baseline value for the normalised name when one exists;
otherwise the 14-day default.  In particular a Pattern with
`sample_count < 2` (e.g. 1) is ignored in favour of the baseline. -/
theorem claim2_predicted_days
    (ps : List Pattern) (bs : List (String × ℤ)) (kid : ℤ) (item : String) :
    (∀ p, findPattern ps kid (normName item) = some p →
        minSamplesForPersonalization ≤ p.sample_count →
        get_predicted_consumption_days ps bs kid item = pyRound p.personalized_days) ∧
    ((findPattern ps kid (normName item)).all
        (fun p => p.sample_count < minSamplesForPersonalization) = true →
      ∀ d, baselineLookup bs (normName item) = some d →
        get_predicted_consumption_days ps bs kid item = d) ∧
    ((findPattern ps kid (normName item)).all
        (fun p => p.sample_count < minSamplesForPersonalization) = true →
      baselineLookup bs (normName item) = none →
        get_predicted_consumption_days ps bs kid item = get_default_consumption_days) := by
  refine ⟨?_, ?_, ?_⟩
  · intro p hp hge
    simp only [get_predicted_consumption_days, hp]
    rw [if_pos hge]
  · intro hlow d hd
    rcases hfp : findPattern ps kid (normName item) with _ | p
    · simp only [get_predicted_consumption_days, hfp, hd]
    · have hlt : p.sample_count < minSamplesForPersonalization := by
        simpa [Option.all, hfp] using hlow
      simp only [get_predicted_consumption_days, hfp]
      rw [if_neg (not_le.mpr hlt), hd]
  · intro hlow hbl
    rcases hfp : findPattern ps kid (normName item) with _ | p
    · simp only [get_predicted_consumption_days, hfp, hbl]
    · have hlt : p.sample_count < minSamplesForPersonalization := by
        simpa [Option.all, hfp] using hlow
      simp only [get_predicted_consumption_days, hfp]
      rw [if_neg (not_le.mpr hlt), hbl]

/-- Pattern with a single sample, ignored by the predictor (spec
scenario for C2). -/
def c2pat : Pattern :=
  { kitchen_id := 1, item_name := "milk", personalized_days := 5,
    sample_count := 1, consumption_rate := none, unit := none,
    confidence := "low", learning_rate := 3/10,
    last_consumption_date := none, updated_at := none }

/-- Pattern trusted by the predictor (C2 witness, personalised branch). -/
def c2pat5 : Pattern :=
  { kitchen_id := 1, item_name := "milk", personalized_days := 11/2,
    sample_count := 5, consumption_rate := none, unit := none,
    confidence := "medium", learning_rate := 1/2,
    last_consumption_date := none, updated_at := none }

/-- Witness for C2: all three branches at concrete inputs (personalised,
baseline despite a 1-sample pattern, and 14-day default). -/
theorem claim2_witness :
    get_predicted_consumption_days [c2pat5] [("milk", 7)] 1 "milk" = pyRound c2pat5.personalized_days ∧
    get_predicted_consumption_days [c2pat] [("milk", 7)] 1 "milk" = 7 ∧
    get_predicted_consumption_days [c2pat] [] 1 "milk" = get_default_consumption_days :=
  ⟨(claim2_predicted_days [c2pat5] [("milk", 7)] 1 "milk").1 c2pat5 (by decide) (by decide),
   (claim2_predicted_days [c2pat] [("milk", 7)] 1 "milk").2.1 (by decide) 7 (by decide),
   (claim2_predicted_days [c2pat] [] 1 "milk").2.2 (by decide) (by decide)⟩

/-! ## Claim C3 -/

/-- Pattern with an existing rate in `"litre"`, then updated with a
`"kg"` observation. -/
def c3pat : Pattern :=
  { kitchen_id := 1, item_name := "milk", personalized_days := 4,
    sample_count := 5, consumption_rate := some 1, unit := some "litre",
    confidence := "medium", learning_rate := 1/2,
    last_consumption_date := none, updated_at := none }

/-- C3 is false on the code. Updating the `"litre"` pattern `c3pat`
with `quantity = 4`, `unit = "kg"`, `daysLasted = 2` changes its
`consumption_rate` from `1` to `3/2` and overwrites its unit with
`"kg"`: `update_consumption_pattern` never compares the supplied unit
with the stored one. -/
theorem claim3_counterexample :
    (findPattern (update_consumption_pattern [c3pat] 1 "milk" 2 (some 4) (some "kg") 0)
        1 "milk").map (fun p => (p.consumption_rate, p.unit)) =
      some (some (3/2 : ℚ), some "kg") ∧
    c3pat.consumption_rate = some 1 ∧ c3pat.unit = some "litre" ∧
    (some (3/2 : ℚ) ≠ some (1 : ℚ)) ∧ ((some "kg" : Option String) ≠ some "litre") := by
  decide

lemma updatedPattern_rate_fields (p : Pattern) (d : ℤ) (cr : ℚ) (hcr : cr ≠ 0)
    (u : Option String) (now : ℚ) :
    (updatedPattern p d (some cr) u now).consumption_rate =
      some (getAdaptiveLearningRate (getConfidenceLevel (p.sample_count + 1)) * cr +
        (1 - getAdaptiveLearningRate (getConfidenceLevel (p.sample_count + 1))) *
          pyOrRate p.consumption_rate cr) ∧
    (updatedPattern p d (some cr) u now).unit = u := by
  unfold updatedPattern
  simp [hcr]

/-- C3 (amended). When an existing Pattern is updated with a quantity
`q > 0` and a unit, the rate component is *not* skipped on a unit
mismatch: `consumption_rate` is always EMA-updated with the observation
rate `q / daysLasted` and the stored unit is overwritten with the
supplied unit, while `personalized_days` is updated by the EMA rule as
usual. -/
theorem claim3_amended_rate_updated_regardless_of_unit
    (ps : List Pattern) (kid : ℤ) (item : String) (days : ℤ) (q : ℚ)
    (u : String) (now : ℚ) (p : Pattern)
    (hfind : findPattern ps kid (normName item) = some p)
    (hq : 0 < q) (hd : 1 ≤ days) :
    ∃ p', findPattern (update_consumption_pattern ps kid item days (some q) (some u) now)
        kid (normName item) = some p' ∧
      p'.unit = some u ∧
      p'.consumption_rate = some
        (getAdaptiveLearningRate (getConfidenceLevel (p.sample_count + 1)) * (q / (days : ℚ)) +
          (1 - getAdaptiveLearningRate (getConfidenceLevel (p.sample_count + 1))) *
            pyOrRate p.consumption_rate (q / (days : ℚ))) ∧
      p'.personalized_days =
        getAdaptiveLearningRate (getConfidenceLevel (p.sample_count + 1)) * (days : ℚ) +
          (1 - getAdaptiveLearningRate (getConfidenceLevel (p.sample_count + 1))) *
            p.personalized_days := by
  have hdQ : (0 : ℚ) < (days : ℚ) := by exact_mod_cast lt_of_lt_of_le Int.zero_lt_one hd
  have hcrne : q / (days : ℚ) ≠ 0 := ne_of_gt (div_pos hq hdQ)
  have hupd : update_consumption_pattern ps kid item days (some q) (some u) now =
      updateFirstPattern ps kid (normName item)
        (fun r => updatedPattern r days (some (q / (days : ℚ))) (some u) now) := by
    simp only [update_consumption_pattern, safeRate]
    rw [if_pos hq, if_neg (by omega : ¬ days = 0), hfind]
  refine ⟨updatedPattern p days (some (q / (days : ℚ))) (some u) now, ?_, ?_, ?_, ?_⟩
  · rw [hupd]
    exact findPattern_updateFirst kid (normName item) _
      (fun r => updatedPattern_key r days (some (q / (days : ℚ))) (some u) now) ps p hfind
  · exact (updatedPattern_rate_fields p days (q / (days : ℚ)) hcrne (some u) now).2
  · exact (updatedPattern_rate_fields p days (q / (days : ℚ)) hcrne (some u) now).1
  · rw [updatedPattern_personalized_days]

/-- Witness for the amended C3 at the counterexample's input. -/
theorem claim3_witness :
    ∃ p', findPattern (update_consumption_pattern [c3pat] 1 "milk" 2 (some 4) (some "kg") 0)
        1 (normName "milk") = some p' ∧
      p'.unit = some "kg" ∧
      p'.consumption_rate = some
        (getAdaptiveLearningRate (getConfidenceLevel (c3pat.sample_count + 1)) * (4 / ((2 : ℤ) : ℚ)) +
          (1 - getAdaptiveLearningRate (getConfidenceLevel (c3pat.sample_count + 1))) *
            pyOrRate c3pat.consumption_rate (4 / ((2 : ℤ) : ℚ))) ∧
      p'.personalized_days =
        getAdaptiveLearningRate (getConfidenceLevel (c3pat.sample_count + 1)) * ((2 : ℤ) : ℚ) +
          (1 - getAdaptiveLearningRate (getConfidenceLevel (c3pat.sample_count + 1))) *
            c3pat.personalized_days :=
  claim3_amended_rate_updated_regardless_of_unit [c3pat] 1 "milk" 2 4 "kg" 0 c3pat
    (by decide) (by norm_num) (by decide)

/-! ## Claim C5 -/

/-- C5. Resolving a pending confirmation with response `denied` sets
its status to `denied` (storing `actual_quantity_remaining` when
provided) in a single commit and changes nothing else: patterns, events,
inventory items and the shopping list are untouched. -/
theorem claim5_denied_no_side_effects
    (db : DBState) (uid : ℤ) (cid : String) (aq : Option ℚ) (now : ℚ)
    (conf : Confirmation) (k : KitchenRec)
    (hcid : cid ≠ "")
    (hfind : findPendingConfirmation db.confirmations cid = some conf)
    (hk : db.kitchens.find? (fun k => k.id = conf.kitchen_id) = some k)
    (hmem : k.host_id = uid ∨ (conf.kitchen_id, uid) ∈ db.members) :
    respond_to_confirmation db uid cid "denied" aq now =
      (200, [{ db with confirmations :=
        (updateFirstConfirmation db.confirmations cid (deniedConfUpdate aq now)) }]) ∧
    (respondFinal db uid cid "denied" aq now).patterns = db.patterns ∧
    (respondFinal db uid cid "denied" aq now).events = db.events ∧
    (respondFinal db uid cid "denied" aq now).items = db.items ∧
    (respondFinal db uid cid "denied" aq now).shopping = db.shopping := by
  have key : respond_to_confirmation db uid cid "denied" aq now =
      (200, [{ db with confirmations :=
        (updateFirstConfirmation db.confirmations cid (deniedConfUpdate aq now)) }]) := by
    rcases hmem with hm | hm <;>
      simp [respond_to_confirmation, hfind, hk, hcid, hm]
  have hfin : respondFinal db uid cid "denied" aq now =
      { db with confirmations :=
        (updateFirstConfirmation db.confirmations cid (deniedConfUpdate aq now)) } := by
    rw [respondFinal, key]
    rfl
  exact ⟨key, by rw [hfin], by rw [hfin], by rw [hfin], by rw [hfin]⟩

/-- A pending confirmation over the concrete milk item. -/
def c5conf : Confirmation :=
  { confirmation_id := "c5", kitchen_id := 1, item_id := "i1",
    item_name := "Milk", quantity := 1, unit := "count",
    added_at := some 0, predicted_depletion_date := 20, status := "pending",
    expires_at := 27, created_at := 20, confirmed_at := none,
    actual_quantity_remaining := none }

/-- Concrete database used to witness C5: one kitchen, one item, one
pending confirmation, one learned pattern. -/
def c5db : DBState :=
  { kitchens := [{ id := 1, host_id := 7, kitchen_name := "Home" }]
    members := []
    items := [{ kitchen_id := 1, item_id := "i1", name := "Milk",
                quantity := 1, unit := "count", added_at := some 0 }]
    patterns := [c2pat5]
    events := []
    confirmations := [c5conf]
    shopping := []
    baselines := [("milk", 7)] }

/-- Witness for C5 at a concrete input. -/
theorem claim5_witness :
    respond_to_confirmation c5db 7 "c5" "denied" (some 2) 20 =
      (200, [{ c5db with confirmations :=
        (updateFirstConfirmation c5db.confirmations "c5" (deniedConfUpdate (some 2) 20)) }]) ∧
    (respondFinal c5db 7 "c5" "denied" (some 2) 20).patterns = c5db.patterns ∧
    (respondFinal c5db 7 "c5" "denied" (some 2) 20).events = c5db.events ∧
    (respondFinal c5db 7 "c5" "denied" (some 2) 20).items = c5db.items ∧
    (respondFinal c5db 7 "c5" "denied" (some 2) 20).shopping = c5db.shopping :=
  claim5_denied_no_side_effects c5db 7 "c5" (some 2) 20 c5conf
    { id := 1, host_id := 7, kitchen_name := "Home" }
    (by decide) (by decide) (by decide) (Or.inl (by decide))

/-! ## Confirmed-branch helper lemmas, claims C10 and C4 -/

lemma log_commits_skip (db : DBState) (kid : ℤ) (idata : ItemData)
    (depleted now : ℚ) (method : String)
    (hbad : idata.added_at = none ∨ idata.quantity ≤ 0) :
    log_consumption_event db kid idata depleted now method = [] := by
  rcases hbad with h | h
  · simp [log_consumption_event, h]
  · rcases ha : idata.added_at with _ | t
    · simp [log_consumption_event, ha]
    · simp [log_consumption_event, ha, h]

lemma if_lt_one_eq_max (d : ℤ) : (if d < 1 then 1 else d) = max 1 d := by
  by_cases h : d < 1 <;> simp [max_def, h] <;> omega

lemma log_commits_valid (db : DBState) (kid : ℤ) (idata : ItemData)
    (depleted now : ℚ) (method : String) (t : ℚ)
    (ht : idata.added_at = some t) (hq : 0 < idata.quantity) :
    log_consumption_event db kid idata depleted now method =
      [{ db with events := db.events ++ [mkConsumptionEvent kid idata t depleted method] },
       { db with
          events := db.events ++ [mkConsumptionEvent kid idata t depleted method],
          patterns := (update_consumption_pattern db.patterns kid idata.name
            (max 1 (timedeltaDays depleted t)) (some idata.quantity) (some idata.unit) now) }] := by
  simp only [log_consumption_event, ht]
  rw [if_neg (not_le.mpr hq), if_lt_one_eq_max]

lemma mkConsumptionEvent_days (kid : ℤ) (idata : ItemData) (t depleted : ℚ)
    (method : String) :
    (mkConsumptionEvent kid idata t depleted method).days_lasted =
      max 1 (timedeltaDays depleted t) := by
  simp only [mkConsumptionEvent, if_lt_one_eq_max]

lemma update_pattern_sample_succ (ps : List Pattern) (kid : ℤ) (item : String)
    (days : ℤ) (q : Option ℚ) (u : Option String) (now : ℚ) (p : Pattern)
    (hfind : findPattern ps kid (normName item) = some p) :
    ∃ p', findPattern (update_consumption_pattern ps kid item days q u now)
        kid (normName item) = some p' ∧ p'.sample_count = p.sample_count + 1 := by
  set cr : Option ℚ :=
    match q with
    | some q' => if q' > 0 then safeRate q' days else none
    | none => none with hcr
  have hupd : update_consumption_pattern ps kid item days q u now =
      updateFirstPattern ps kid (normName item)
        (fun r => updatedPattern r days cr u now) := by
    simp only [update_consumption_pattern]
    rw [← hcr, hfind]
  refine ⟨updatedPattern p days cr u now, ?_, updatedPattern_sample_count p days cr u now⟩
  rw [hupd]
  exact findPattern_updateFirst kid (normName item) _
    (fun r => updatedPattern_key r days cr u now) ps p hfind

/-- C10. Confirming a pending confirmation whose recorded quantity is
`≤ 0` or whose `added_at` is missing still deletes the inventory item,
adds the shopping-list row and flips the status to `confirmed` — in a
single commit — but appends no `ConsumptionEvent` and leaves the pattern
table entirely unchanged: the training update is silently skipped. -/
theorem claim10_invalid_confirmation_skips_training
    (db : DBState) (uid : ℤ) (cid : String) (aq : Option ℚ) (now : ℚ)
    (conf : Confirmation) (k : KitchenRec)
    (hcid : cid ≠ "")
    (hfind : findPendingConfirmation db.confirmations cid = some conf)
    (hk : db.kitchens.find? (fun k => k.id = conf.kitchen_id) = some k)
    (hmem : k.host_id = uid ∨ (conf.kitchen_id, uid) ∈ db.members)
    (hbad : conf.quantity ≤ 0 ∨ conf.added_at = none)
    (hlen : 0 < (db.items.filter (fun i =>
      i.kitchen_id = conf.kitchen_id ∧ i.item_id = conf.item_id)).length) :
    respond_to_confirmation db uid cid "confirmed" aq now =
      (200, [{ db with
        items := db.items.filter (fun i =>
          ¬ (i.kitchen_id = conf.kitchen_id ∧ i.item_id = conf.item_id)),
        shopping := db.shopping ++ [confShoppingItem conf],
        confirmations := (updateFirstConfirmation db.confirmations cid
          (confirmedConfUpdate now)) }]) ∧
    (respondFinal db uid cid "confirmed" aq now).events = db.events ∧
    (respondFinal db uid cid "confirmed" aq now).patterns = db.patterns := by
  have hlog : log_consumption_event db conf.kitchen_id (confItemData conf) now now "confirmed" = [] :=
    log_commits_skip db conf.kitchen_id (confItemData conf) now now "confirmed"
      (by rcases hbad with h | h
          · exact Or.inr h
          · exact Or.inl h)
  have key : respond_to_confirmation db uid cid "confirmed" aq now =
      (200, [{ db with
        items := db.items.filter (fun i =>
          ¬ (i.kitchen_id = conf.kitchen_id ∧ i.item_id = conf.item_id)),
        shopping := db.shopping ++ [confShoppingItem conf],
        confirmations := (updateFirstConfirmation db.confirmations cid
          (confirmedConfUpdate now)) }]) := by
    have hex : ∃ x ∈ db.items,
        x.kitchen_id = conf.kitchen_id ∧ x.item_id = conf.item_id := by
      simp [List.length_pos, List.filter_eq_nil_iff] at hlen
      simpa using hlen
    rcases hmem with hm | hm <;>
      simp [respond_to_confirmation, hfind, hk, hcid, hm, hex, hlog]
  refine ⟨key, ?_, ?_⟩ <;> · rw [respondFinal, key]; rfl

/-- Pending confirmation with an invalid (zero) recorded quantity. -/
def c10conf : Confirmation :=
  { confirmation_id := "c10", kitchen_id := 1, item_id := "i1",
    item_name := "Milk", quantity := 0, unit := "count",
    added_at := some 0, predicted_depletion_date := 20, status := "pending",
    expires_at := 27, created_at := 20, confirmed_at := none,
    actual_quantity_remaining := none }

/-- Concrete database used to witness C10. -/
def c10db : DBState :=
  { kitchens := [{ id := 1, host_id := 7, kitchen_name := "Home" }]
    members := []
    items := [{ kitchen_id := 1, item_id := "i1", name := "Milk",
                quantity := 0, unit := "count", added_at := some 0 }]
    patterns := [c2pat5]
    events := []
    confirmations := [c10conf]
    shopping := []
    baselines := [("milk", 7)] }

/-- Witness for C10 at a concrete input. -/
theorem claim10_witness :
    respond_to_confirmation c10db 7 "c10" "confirmed" none 20 =
      (200, [{ c10db with
        items := c10db.items.filter (fun i =>
          ¬ (i.kitchen_id = c10conf.kitchen_id ∧ i.item_id = c10conf.item_id)),
        shopping := c10db.shopping ++ [confShoppingItem c10conf],
        confirmations := (updateFirstConfirmation c10db.confirmations "c10"
          (confirmedConfUpdate 20)) }]) ∧
    (respondFinal c10db 7 "c10" "confirmed" none 20).events = c10db.events ∧
    (respondFinal c10db 7 "c10" "confirmed" none 20).patterns = c10db.patterns :=
  claim10_invalid_confirmation_skips_training c10db 7 "c10" none 20 c10conf
    { id := 1, host_id := 7, kitchen_name := "Home" }
    (by decide) (by decide) (by decide) (Or.inl (by decide))
    (Or.inl (by decide)) (by decide)

/-- Learned pattern for milk in kitchen 1 (C4 inputs). -/
def c4pat : Pattern :=
  { kitchen_id := 1, item_name := "milk", personalized_days := 11/2,
    sample_count := 5, consumption_rate := none, unit := none,
    confidence := "medium", learning_rate := 1/2,
    last_consumption_date := none, updated_at := none }

/-- Pending confirmation with valid quantity and timestamp (C4 inputs). -/
def c4conf : Confirmation :=
  { confirmation_id := "c4", kitchen_id := 1, item_id := "i1",
    item_name := "Milk", quantity := 1, unit := "count",
    added_at := some 0, predicted_depletion_date := 20, status := "pending",
    expires_at := 27, created_at := 20, confirmed_at := none,
    actual_quantity_remaining := none }

/-- Concrete database for C4. -/
def c4db : DBState :=
  { kitchens := [{ id := 1, host_id := 7, kitchen_name := "Home" }]
    members := []
    items := [{ kitchen_id := 1, item_id := "i1", name := "Milk",
                quantity := 1, unit := "count", added_at := some 0 }]
    patterns := [c4pat]
    events := []
    confirmations := [c4conf]
    shopping := []
    baselines := [("milk", 7)] }

/-- C4 is false on the code. Confirming `c4conf` commits three times,
not once: after the first commit the `ConsumptionEvent` is already in the
log while the inventory item is still present — the inventory delete, the
event append and the pattern update are not one atomic transaction. -/
theorem claim4_counterexample :
    (respond_to_confirmation c4db 7 "c4" "confirmed" none 20).2.length = 3 ∧
    (respond_to_confirmation c4db 7 "c4" "confirmed" none 20).2.length ≠ 1 ∧
    ((respond_to_confirmation c4db 7 "c4" "confirmed" none 20).2.headD c4db).events ≠
      c4db.events ∧
    ((respond_to_confirmation c4db 7 "c4" "confirmed" none 20).2.headD c4db).items =
      c4db.items := by
  decide

/-- C4 (amended). Confirming a pending confirmation with a recorded
positive quantity and timestamp removes the item, appends exactly one
`ConsumptionEvent` with `days_lasted = max(1, ⌊now − added_at⌋)` and
applies the pattern update (incrementing `sample_count` by 1) — but these
effects are spread over *three* separate commits: the event and the
pattern update are committed (on separate sessions) before the commit
holding the inventory delete, the shopping-list insert and the status
flip.  Only when the delete matches no row does nothing commit (404). -/
theorem claim4_amended_three_commits
    (db : DBState) (uid : ℤ) (cid : String) (aq : Option ℚ) (now : ℚ)
    (conf : Confirmation) (k : KitchenRec) (t : ℚ)
    (hcid : cid ≠ "")
    (hfind : findPendingConfirmation db.confirmations cid = some conf)
    (hk : db.kitchens.find? (fun k => k.id = conf.kitchen_id) = some k)
    (hmem : k.host_id = uid ∨ (conf.kitchen_id, uid) ∈ db.members)
    (ht : conf.added_at = some t) (hq : 0 < conf.quantity) :
    ((db.items.filter (fun i =>
        i.kitchen_id = conf.kitchen_id ∧ i.item_id = conf.item_id)) = [] →
      respond_to_confirmation db uid cid "confirmed" aq now = (404, [])) ∧
    (0 < (db.items.filter (fun i =>
        i.kitchen_id = conf.kitchen_id ∧ i.item_id = conf.item_id)).length →
      respond_to_confirmation db uid cid "confirmed" aq now =
        (200,
          [{ db with events := db.events ++
              [mkConsumptionEvent conf.kitchen_id (confItemData conf) t now "confirmed"] },
           { db with
              events := db.events ++
                [mkConsumptionEvent conf.kitchen_id (confItemData conf) t now "confirmed"],
              patterns := (update_consumption_pattern db.patterns conf.kitchen_id conf.item_name
                (max 1 (timedeltaDays now t)) (some conf.quantity) (some conf.unit) now) },
           { db with
              events := db.events ++
                [mkConsumptionEvent conf.kitchen_id (confItemData conf) t now "confirmed"],
              patterns := (update_consumption_pattern db.patterns conf.kitchen_id conf.item_name
                (max 1 (timedeltaDays now t)) (some conf.quantity) (some conf.unit) now),
              items := db.items.filter (fun i =>
                ¬ (i.kitchen_id = conf.kitchen_id ∧ i.item_id = conf.item_id)),
              shopping := db.shopping ++ [confShoppingItem conf],
              confirmations := (updateFirstConfirmation db.confirmations cid
                (confirmedConfUpdate now)) }])) ∧
    (mkConsumptionEvent conf.kitchen_id (confItemData conf) t now "confirmed").days_lasted =
      max 1 (timedeltaDays now t) ∧
    (∀ p, findPattern db.patterns conf.kitchen_id (normName conf.item_name) = some p →
      ∃ p', findPattern (update_consumption_pattern db.patterns conf.kitchen_id conf.item_name
          (max 1 (timedeltaDays now t)) (some conf.quantity) (some conf.unit) now)
          conf.kitchen_id (normName conf.item_name) = some p' ∧
        p'.sample_count = p.sample_count + 1) := by
  have hlog := log_commits_valid db conf.kitchen_id (confItemData conf) now now "confirmed" t
    (show (confItemData conf).added_at = some t from ht)
    (show (0 : ℚ) < (confItemData conf).quantity from hq)
  refine ⟨?_, ?_, mkConsumptionEvent_days conf.kitchen_id (confItemData conf) t now "confirmed", ?_⟩
  · intro hnil
    have hni : ∀ a ∈ db.items, a.kitchen_id = conf.kitchen_id → ¬ a.item_id = conf.item_id := by
      intro a ha
      have h' := List.filter_eq_nil_iff.mp hnil a ha
      simp at h'
      exact h'
    rcases hmem with hm | hm
    · simp [respond_to_confirmation, hfind, hk, hcid, hm]
      exact hni
    · simp [respond_to_confirmation, hfind, hk, hcid, hm]
      exact hni
  · intro hlen
    have hex : ∃ x ∈ db.items,
        x.kitchen_id = conf.kitchen_id ∧ x.item_id = conf.item_id := by
      simp [List.length_pos, List.filter_eq_nil_iff] at hlen
      simpa using hlen
    have key : respond_to_confirmation db uid cid "confirmed" aq now =
        (200, log_consumption_event db conf.kitchen_id (confItemData conf) now now "confirmed" ++
          [{ (log_consumption_event db conf.kitchen_id (confItemData conf) now now "confirmed").getLastD db with
              items := db.items.filter (fun i =>
                ¬ (i.kitchen_id = conf.kitchen_id ∧ i.item_id = conf.item_id)),
              shopping := ((log_consumption_event db conf.kitchen_id (confItemData conf) now now "confirmed").getLastD db).shopping ++ [confShoppingItem conf],
              confirmations := (updateFirstConfirmation ((log_consumption_event db conf.kitchen_id (confItemData conf) now now "confirmed").getLastD db).confirmations cid (confirmedConfUpdate now)) }]) := by
      rcases hmem with hm | hm <;>
        simp [respond_to_confirmation, hfind, hk, hcid, hm, hex]
    rw [key, hlog]
    simp [confItemData]
  · intro p hp
    exact update_pattern_sample_succ db.patterns conf.kitchen_id conf.item_name
      (max 1 (timedeltaDays now t)) (some conf.quantity) (some conf.unit) now p hp

/-- Witness for the amended C4 at a concrete input. -/
theorem claim4_witness :
    ((c4db.items.filter (fun i =>
        i.kitchen_id = c4conf.kitchen_id ∧ i.item_id = c4conf.item_id)) = [] →
      respond_to_confirmation c4db 7 "c4" "confirmed" none 20 = (404, [])) ∧
    (0 < (c4db.items.filter (fun i =>
        i.kitchen_id = c4conf.kitchen_id ∧ i.item_id = c4conf.item_id)).length →
      respond_to_confirmation c4db 7 "c4" "confirmed" none 20 =
        (200,
          [{ c4db with events := c4db.events ++
              [mkConsumptionEvent c4conf.kitchen_id (confItemData c4conf) 0 20 "confirmed"] },
           { c4db with
              events := c4db.events ++
                [mkConsumptionEvent c4conf.kitchen_id (confItemData c4conf) 0 20 "confirmed"],
              patterns := (update_consumption_pattern c4db.patterns c4conf.kitchen_id c4conf.item_name
                (max 1 (timedeltaDays 20 0)) (some c4conf.quantity) (some c4conf.unit) 20) },
           { c4db with
              events := c4db.events ++
                [mkConsumptionEvent c4conf.kitchen_id (confItemData c4conf) 0 20 "confirmed"],
              patterns := (update_consumption_pattern c4db.patterns c4conf.kitchen_id c4conf.item_name
                (max 1 (timedeltaDays 20 0)) (some c4conf.quantity) (some c4conf.unit) 20),
              items := c4db.items.filter (fun i =>
                ¬ (i.kitchen_id = c4conf.kitchen_id ∧ i.item_id = c4conf.item_id)),
              shopping := c4db.shopping ++ [confShoppingItem c4conf],
              confirmations := (updateFirstConfirmation c4db.confirmations "c4"
                (confirmedConfUpdate 20)) }])) ∧
    (mkConsumptionEvent c4conf.kitchen_id (confItemData c4conf) 0 20 "confirmed").days_lasted =
      max 1 (timedeltaDays 20 0) ∧
    (∀ p, findPattern c4db.patterns c4conf.kitchen_id (normName c4conf.item_name) = some p →
      ∃ p', findPattern (update_consumption_pattern c4db.patterns c4conf.kitchen_id c4conf.item_name
          (max 1 (timedeltaDays 20 0)) (some c4conf.quantity) (some c4conf.unit) 20)
          c4conf.kitchen_id (normName c4conf.item_name) = some p' ∧
        p'.sample_count = p.sample_count + 1) :=
  claim4_amended_three_commits c4db 7 "c4" none 20 c4conf
    { id := 1, host_id := 7, kitchen_name := "Home" } 0
    (by decide) (by decide) (by decide) (Or.inl (by decide))
    (by decide) (by decide)

/-! ## Claim C8 -/

/-- An already-resolved confirmation (status `confirmed`). -/
def c8conf : Confirmation :=
  { confirmation_id := "c8", kitchen_id := 1, item_id := "i1",
    item_name := "Milk", quantity := 1, unit := "count",
    added_at := some 0, predicted_depletion_date := 20, status := "confirmed",
    expires_at := 27, created_at := 20, confirmed_at := some 20,
    actual_quantity_remaining := none }

/-- Concrete database for C8: the confirmation id exists but is no longer
pending. -/
def c8db : DBState :=
  { kitchens := [{ id := 1, host_id := 7, kitchen_name := "Home" }]
    members := []
    items := []
    patterns := []
    events := []
    confirmations := [c8conf]
    shopping := []
    baselines := [] }

/-- C8 is false on the code. Resolving the known id `"c8"`, whose
confirmation is already `confirmed`, yields HTTP 404 ("Confirmation not
found or already processed"), not the 409 conflict the claim requires:
the route's query filters on `status = 'pending'`, so an
already-processed confirmation is indistinguishable from an unknown
one. -/
theorem claim8_counterexample :
    respond_to_confirmation c8db 7 "c8" "confirmed" none 0 = (404, []) ∧
    (404 : ℕ) ≠ 409 ∧
    c8conf ∈ c8db.confirmations ∧
    c8conf.confirmation_id = "c8" ∧
    c8conf.status ≠ "pending" := by
  decide

/-- C8 (amended). Attempting to resolve a confirmation whose status
is no longer `pending` fails with the 404 "not found or already
processed" response and commits nothing, so resolution is exactly-once;
the same 404 — not a distinct 409 — is returned for unknown ids, because
the lookup filters on `status = 'pending'`. -/
theorem claim8_amended_non_pending_404
    (db : DBState) (uid : ℤ) (cid : String) (resp : String)
    (aq : Option ℚ) (now : ℚ)
    (hcid : cid ≠ "") (hresp : resp = "confirmed" ∨ resp = "denied")
    (hnp : ∀ c ∈ db.confirmations, c.confirmation_id = cid → c.status ≠ "pending") :
    respond_to_confirmation db uid cid resp aq now = (404, []) ∧
    respondFinal db uid cid resp aq now = db := by
  have hfind : findPendingConfirmation db.confirmations cid = none := by
    rw [findPendingConfirmation, List.find?_eq_none]
    intro c hc
    simp only [decide_eq_true_eq, not_and]
    exact fun h1 => hnp c hc h1
  constructor
  · rcases hresp with h | h <;> subst h <;>
      simp [respond_to_confirmation, hfind, hcid]
  · have : respond_to_confirmation db uid cid resp aq now = (404, []) := by
      rcases hresp with h | h <;> subst h <;>
        simp [respond_to_confirmation, hfind, hcid]
    rw [respondFinal, this]
    rfl

/-- Witness for the amended C8 at the counterexample's input. -/
theorem claim8_witness :
    respond_to_confirmation c8db 7 "c8" "confirmed" none 0 = (404, []) ∧
    respondFinal c8db 7 "c8" "confirmed" none 0 = c8db :=
  claim8_amended_non_pending_404 c8db 7 "c8" "confirmed" none 0
    (by decide) (Or.inl rfl) (by decide)

/-! ## Claim C7 -/

lemma insertionSort_head_min (g : List InvItem) (oldest : InvItem)
    (rest : List InvItem)
    (hsort : List.insertionSort itemLe g = oldest :: rest) :
    ∀ x ∈ g, oldest.added_at.getD 0 ≤ x.added_at.getD 0 := by
  intro x hx
  have hmem : x ∈ List.insertionSort itemLe g :=
    (List.mem_insertionSort itemLe).mpr hx
  rw [hsort] at hmem
  rcases List.mem_cons.mp hmem with rfl | hmem
  · exact le_refl _
  · have hs := List.sorted_insertionSort itemLe g
    rw [hsort] at hs
    exact List.rel_of_sorted_cons hs x hmem

/-- C7. Within a name-group the scan evaluates only the oldest item
(minimal `added_at` — first conjunct), requests a confirmation exactly
when `⌊now − added_at⌋ ≥ min(predictedDays, 90)` and no confirmation for
`(kitchen, item)` is pending (second/third/fourth conjuncts: the three
possible outcomes, each touching only the oldest item), and for three
same-named items added at `t1 < t2 < t3` the sort puts the `t1` item
first (last conjunct). -/
theorem claim7_oldest_item_only
    (patterns : List Pattern) (bs : List (String × ℤ)) (now : ℚ)
    (kid : ℤ) (kname : String) (st : ScanState) (name : String)
    (group : List InvItem) (oldest : InvItem) (rest : List InvItem) (t : ℚ)
    (hsort : List.insertionSort itemLe group = oldest :: rest)
    (ht : oldest.added_at = some t) :
    (∀ x ∈ group, t ≤ x.added_at.getD 0) ∧
    (min (get_predicted_consumption_days patterns bs kid name) 90 ≤ timedeltaDays now t →
      (kid, oldest.item_id) ∉ st.pending →
      stepGroup patterns bs now noFault noFault kid kname st (name, group) =
        .ok { st with
          items_checked := st.items_checked + group.length,
          confirmations_created := st.confirmations_created + 1,
          pending := st.pending ++ [(kid, oldest.item_id)],
          newConfs := st.newConfs ++ [create_pending_confirmation kid
            { item_id := oldest.item_id, name := oldest.name,
              quantity := oldest.quantity, unit := oldest.unit,
              added_at := oldest.added_at } now now st.fresh],
          fresh := st.fresh + 1 }) ∧
    (min (get_predicted_consumption_days patterns bs kid name) 90 ≤ timedeltaDays now t →
      (kid, oldest.item_id) ∈ st.pending →
      stepGroup patterns bs now noFault noFault kid kname st (name, group) =
        .ok { st with
          items_checked := st.items_checked + group.length,
          confirmations_skipped := st.confirmations_skipped + 1 }) ∧
    (timedeltaDays now t < min (get_predicted_consumption_days patterns bs kid name) 90 →
      stepGroup patterns bs now noFault noFault kid kname st (name, group) =
        .ok { st with items_checked := st.items_checked + group.length }) ∧
    (∀ (a b c : InvItem) (t1 t2 t3 : ℚ), a.added_at = some t1 →
      b.added_at = some t2 → c.added_at = some t3 → t1 < t2 → t2 < t3 →
      (List.insertionSort itemLe [a, b, c]).head? = some a) := by
  have hmin : ∀ x ∈ group, t ≤ x.added_at.getD 0 := by
    intro x hx
    have := insertionSort_head_min group oldest rest hsort x hx
    rwa [ht] at this
  refine ⟨hmin, ?_, ?_, ?_, ?_⟩
  · intro hdue hpend
    simp only [stepGroup, hsort, ht, noFault, List.head?]
    rw [if_pos hdue, if_neg hpend]
  · intro hdue hpend
    simp only [stepGroup, hsort, ht, noFault, List.head?]
    rw [if_pos hdue, if_pos hpend]
  · intro hlt
    simp only [stepGroup, hsort, ht, noFault, List.head?]
    rw [if_neg (not_le.mpr hlt)]
  · intro a b c t1 t2 t3 h1 h2 h3 h12 h23
    have hab : itemLe a b := by
      simp only [itemLe, h1, h2, Option.getD]
      exact le_of_lt h12
    have hbc : itemLe b c := by
      simp only [itemLe, h2, h3, Option.getD]
      exact le_of_lt h23
    simp [List.insertionSort, List.orderedInsert, hab, hbc]

/-- Same-named items added at days 5, 3 and 8 (C7 witness). -/
def c7i1 : InvItem :=
  { kitchen_id := 1, item_id := "a1", name := "Milk", quantity := 1,
    unit := "count", added_at := some 5 }

def c7i2 : InvItem :=
  { kitchen_id := 1, item_id := "a2", name := "Milk", quantity := 1,
    unit := "count", added_at := some 3 }

def c7i3 : InvItem :=
  { kitchen_id := 1, item_id := "a3", name := "Milk", quantity := 1,
    unit := "count", added_at := some 8 }

/-- An empty scan state (C7 witness). -/
def c7st : ScanState :=
  { kitchens_checked := 0, items_checked := 0, confirmations_created := 0,
    confirmations_skipped := 0, errors := [], pending := [], newConfs := [],
    fresh := 0 }

/-- Witness for C7 at a concrete input: among the three milk items the
one added at day 3 is the evaluated oldest. -/
theorem claim7_witness :
    (∀ x ∈ [c7i1, c7i2, c7i3], (3 : ℚ) ≤ x.added_at.getD 0) ∧
    (min (get_predicted_consumption_days [] [("milk", 7)] 1 "milk") 90 ≤ timedeltaDays 20 3 →
      (1, c7i2.item_id) ∉ c7st.pending →
      stepGroup [] [("milk", 7)] 20 noFault noFault 1 "Home" c7st ("milk", [c7i1, c7i2, c7i3]) =
        .ok { c7st with
          items_checked := c7st.items_checked + [c7i1, c7i2, c7i3].length,
          confirmations_created := c7st.confirmations_created + 1,
          pending := c7st.pending ++ [(1, c7i2.item_id)],
          newConfs := c7st.newConfs ++ [create_pending_confirmation 1
            { item_id := c7i2.item_id, name := c7i2.name,
              quantity := c7i2.quantity, unit := c7i2.unit,
              added_at := c7i2.added_at } 20 20 c7st.fresh],
          fresh := c7st.fresh + 1 }) ∧
    (min (get_predicted_consumption_days [] [("milk", 7)] 1 "milk") 90 ≤ timedeltaDays 20 3 →
      (1, c7i2.item_id) ∈ c7st.pending →
      stepGroup [] [("milk", 7)] 20 noFault noFault 1 "Home" c7st ("milk", [c7i1, c7i2, c7i3]) =
        .ok { c7st with
          items_checked := c7st.items_checked + [c7i1, c7i2, c7i3].length,
          confirmations_skipped := c7st.confirmations_skipped + 1 }) ∧
    (timedeltaDays 20 3 < min (get_predicted_consumption_days [] [("milk", 7)] 1 "milk") 90 →
      stepGroup [] [("milk", 7)] 20 noFault noFault 1 "Home" c7st ("milk", [c7i1, c7i2, c7i3]) =
        .ok { c7st with items_checked := c7st.items_checked + [c7i1, c7i2, c7i3].length }) ∧
    (∀ (a b c : InvItem) (t1 t2 t3 : ℚ), a.added_at = some t1 →
      b.added_at = some t2 → c.added_at = some t3 → t1 < t2 → t2 < t3 →
      (List.insertionSort itemLe [a, b, c]).head? = some a) :=
  claim7_oldest_item_only [] [("milk", 7)] 20 1 "Home" c7st "milk"
    [c7i1, c7i2, c7i3] c7i2 [c7i1, c7i3] 3 (by decide) (by decide)

/-! ## Claim C9 -/

lemma addToGroup_added (gs : List (String × List InvItem)) (name : String)
    (it : InvItem) (hit : it.added_at ≠ none)
    (hgs : ∀ p ∈ gs, ∀ x ∈ p.2, x.added_at ≠ none) :
    ∀ p ∈ addToGroup gs name it, ∀ x ∈ p.2, x.added_at ≠ none := by
  induction gs with
  | nil =>
    intro p hp x hx
    simp [addToGroup] at hp
    subst hp
    simp at hx
    subst hx
    exact hit
  | cons g rest ih =>
    intro p hp x hx
    rw [addToGroup] at hp
    by_cases hname : g.1 = name
    · rw [if_pos hname] at hp
      rcases List.mem_cons.mp hp with rfl | hp
      · rcases List.mem_append.mp hx with hx | hx
        · exact hgs g (List.mem_cons_self g rest) x hx
        · simp at hx
          subst hx
          exact hit
      · exact hgs p (List.mem_cons_of_mem g hp) x hx
    · rw [if_neg hname] at hp
      rcases List.mem_cons.mp hp with rfl | hp
      · exact hgs g (List.mem_cons_self g rest) x hx
      · exact ih (fun q hq => hgs q (List.mem_cons_of_mem g hq)) p hp x hx

lemma groupItemsByName_added (items : List InvItem) :
    ∀ p ∈ groupItemsByName items, ∀ x ∈ p.2, x.added_at ≠ none := by
  suffices h : ∀ acc, (∀ p ∈ acc, ∀ x ∈ p.2, x.added_at ≠ none) →
      ∀ p ∈ items.foldl
        (fun gs it =>
          let name := pyLower it.name
          if name = "" then gs
          else if it.added_at = none ∨ it.quantity ≤ 0 then gs
          else addToGroup gs name it) acc, ∀ x ∈ p.2, x.added_at ≠ none by
    exact h [] (by simp)
  induction items with
  | nil => intro acc hacc; simpa using hacc
  | cons it rest ih =>
    intro acc hacc
    simp only [List.foldl_cons]
    apply ih
    by_cases h1 : pyLower it.name = ""
    · simpa [h1] using hacc
    · by_cases h2 : it.added_at = none ∨ it.quantity ≤ 0
      · simpa [h1, h2] using hacc
      · have hit : it.added_at ≠ none := fun h => h2 (Or.inl h)
        simpa [h1, h2] using addToGroup_added acc (pyLower it.name) it hit hacc

lemma stepGroup_ok (patterns : List Pattern) (bs : List (String × ℤ))
    (now : ℚ) (fc : ℤ → String → Option String) (kid : ℤ) (kname : String)
    (st : ScanState) (g : String × List InvItem)
    (hg : ∀ x ∈ g.2, x.added_at ≠ none) :
    ∃ st', stepGroup patterns bs now noFault fc kid kname st g = .ok st' := by
  rcases hl : List.insertionSort itemLe g.2 with _ | ⟨o, tail⟩
  · exact ⟨{ st with items_checked := st.items_checked + g.2.length },
      by simp [stepGroup, hl]⟩
  · have ho : o ∈ g.2 := by
      have : o ∈ List.insertionSort itemLe g.2 := by rw [hl]; exact List.mem_cons_self o tail
      exact (List.mem_insertionSort itemLe).mp this
    rcases ht : o.added_at with _ | t
    · exact absurd ht (hg o ho)
    · simp only [stepGroup, hl, ht, noFault, List.head?]
      split
      · split
        · exact ⟨_, rfl⟩
        · rcases hfc : fc kid o.item_id with _ | msg <;> simp only [hfc] <;> exact ⟨_, rfl⟩
      · exact ⟨_, rfl⟩

lemma foldlM_except_ok {σ α : Type} (f : σ → α → Except σ σ) (xs : List α)
    (h : ∀ s a, a ∈ xs → ∃ s', f s a = .ok s') :
    ∀ s, ∃ s', xs.foldlM f s = .ok s' := by
  induction xs with
  | nil => intro s; exact ⟨s, rfl⟩
  | cons x xs ih =>
    intro s
    obtain ⟨s1, h1⟩ := h s x (List.mem_cons_self x xs)
    obtain ⟨s2, h2⟩ := ih (fun s a ha => h s a (List.mem_cons_of_mem x ha)) s1
    refine ⟨s2, ?_⟩
    simp only [List.foldlM_cons, h1]
    simpa using h2

lemma stepKitchen_ok (db : DBState) (now : ℚ)
    (fc : ℤ → String → Option String) (st : ScanState) (k : KitchenRec) :
    ∃ st', stepKitchen db now noFault fc st k = .ok st' := by
  unfold stepKitchen
  apply foldlM_except_ok
  intro s g hg
  exact stepGroup_ok db.patterns db.baselines now fc k.id
    (if k.kitchen_name = "" then "Unknown" else k.kitchen_name) s g
    (groupItemsByName_added (db.items.filter (fun i => i.kitchen_id = k.id)) g hg)

/-- Two-kitchen database with one overdue item each (C9 inputs). -/
def c9db : DBState :=
  { kitchens := [{ id := 1, host_id := 7, kitchen_name := "A" },
                 { id := 2, host_id := 7, kitchen_name := "B" }]
    members := []
    items := [{ kitchen_id := 1, item_id := "i1", name := "Milk",
                quantity := 1, unit := "count", added_at := some 0 },
              { kitchen_id := 2, item_id := "i2", name := "Eggs",
                quantity := 1, unit := "count", added_at := some 0 }]
    patterns := []
    events := []
    confirmations := []
    shopping := []
    baselines := [] }

/-- Fault oracle: the prediction lookup for kitchen 1's milk raises (a
transient storage error at line 557, outside the per-item `try`). -/
def failPredictMilk : ℤ → String → Option String :=
  fun kid name =>
    if kid = 1 ∧ name = "milk" then some "OperationalError: connection lost"
    else none

/-- Fault oracle: creating the confirmation for kitchen 1's item `i1`
raises (inside the per-item `try`). -/
def failCreateI1 : ℤ → String → Option String :=
  fun kid iid => if kid = 1 ∧ iid = "i1" then some "IntegrityError" else none

/-- C9 is false on the code. An exception while *evaluating* kitchen
1's milk item (the prediction lookup, which sits outside the per-item
`try`) aborts the whole sweep: the error is recorded, but kitchen 2 —
whose eggs are equally overdue, as the fault-free run creating 2
confirmations shows — is never scanned. -/
theorem claim9_counterexample :
    (check_and_deplete_items c9db 20 failPredictMilk noFault).kitchens_checked = 1 ∧
    (check_and_deplete_items c9db 20 failPredictMilk noFault).confirmations_created = 0 ∧
    (check_and_deplete_items c9db 20 failPredictMilk noFault).errors =
      ["OperationalError: connection lost"] ∧
    (check_and_deplete_items c9db 20 noFault noFault).confirmations_created = 2 ∧
    (check_and_deplete_items c9db 20 noFault noFault).kitchens_checked = 2 := by
  decide

/-- C9 (amended). Exceptions raised while *creating* a confirmation
are caught per item: with any pattern of creation failures the scan body
always completes (never escapes to the scan-level handler), and in the
concrete two-kitchen run the creation failure in kitchen 1 is recorded
while kitchen 2 is still scanned and gets its confirmation.  But an
exception raised while *evaluating* an item (e.g. the prediction lookup)
escapes the per-item `try`; the scan-level handler records it and
returns the summary immediately, so the remaining items and households
are not scanned. -/
theorem claim9_amended_catch_scope :
    (∀ (db : DBState) (now : ℚ) (fc : ℤ → String → Option String),
      ∃ st, scanBody db now noFault fc = .ok st) ∧
    (check_and_deplete_items c9db 20 noFault failCreateI1).kitchens_checked = 2 ∧
    (check_and_deplete_items c9db 20 noFault failCreateI1).confirmations_created = 1 ∧
    (check_and_deplete_items c9db 20 noFault failCreateI1).errors =
      ["Error creating confirmation for 'milk' in kitchen 'A': IntegrityError"] ∧
    (check_and_deplete_items c9db 20 failPredictMilk noFault).kitchens_checked = 1 ∧
    (check_and_deplete_items c9db 20 failPredictMilk noFault).items_checked = 1 ∧
    (check_and_deplete_items c9db 20 failPredictMilk noFault).confirmations_created = 0 := by
  refine ⟨?_, by decide, by decide, by decide, by decide, by decide, by decide⟩
  intro db now fc
  unfold scanBody
  exact foldlM_except_ok _ _ (fun s k _ => stepKitchen_ok db now fc s k) _

/-! ## Claim C6 -/

/-- The `(kitchen_id, item_id)` keys of the pending confirmations. -/
def pendingKeys (cs : List Confirmation) : List (ℤ × String) :=
  (cs.filter (fun c => c.status = "pending")).map (fun c => (c.kitchen_id, c.item_id))

/-- The invariant: at most one pending confirmation per
`(kitchen_id, item_id)` pair. -/
def atMostOnePending (db : DBState) : Prop :=
  (pendingKeys db.confirmations).Nodup

lemma pendingKeys_append (a b : List Confirmation) :
    pendingKeys (a ++ b) = pendingKeys a ++ pendingKeys b := by
  simp [pendingKeys, List.filter_append]

lemma mem_pendingKeys (cs : List Confirmation) (key : ℤ × String) :
    key ∈ pendingKeys cs ↔
      ∃ c ∈ cs, c.status = "pending" ∧ key = (c.kitchen_id, c.item_id) := by
  constructor
  · intro h
    rcases List.mem_map.mp h with ⟨c, hc, hk⟩
    rcases List.mem_filter.mp hc with ⟨hc1, hc2⟩
    exact ⟨c, hc1, by simpa using hc2, hk.symm⟩
  · rintro ⟨c, hc, hst, rfl⟩
    exact List.mem_map.mpr ⟨c, List.mem_filter.mpr ⟨hc, by simpa using hst⟩, rfl⟩

/-- The invariant carried through the scan's folds: every in-scope
pending confirmation's key is in the lookup set, every created
confirmation is pending with its key in the lookup set, and the pending
keys of the table-plus-created confirmations are pairwise distinct. -/
def ScanInv (db : DBState) (scope : List ℤ) (st : ScanState) : Prop :=
  (∀ c ∈ db.confirmations, c.status = "pending" → c.kitchen_id ∈ scope →
    (c.kitchen_id, c.item_id) ∈ st.pending) ∧
  (∀ c ∈ st.newConfs,
    (c.kitchen_id, c.item_id) ∈ st.pending ∧ c.status = "pending") ∧
  (pendingKeys (db.confirmations ++ st.newConfs)).Nodup

lemma ScanInv_congr (db : DBState) (scope : List ℤ) (st st' : ScanState)
    (hP : ScanInv db scope st)
    (hpend : st'.pending = st.pending) (hnew : st'.newConfs = st.newConfs) :
    ScanInv db scope st' := by
  refine ⟨?_, ?_, ?_⟩
  · intro c hc h1 h2
    rw [hpend]
    exact hP.1 c hc h1 h2
  · intro c hc
    rw [hpend]
    exact hP.2.1 c (hnew ▸ hc)
  · rw [hnew]
    exact hP.2.2

lemma foldlM_except_inv {σ α : Type} (P : σ → Prop) (f : σ → α → Except σ σ)
    (xs : List α)
    (h : ∀ s a, a ∈ xs → P s →
      (∀ s', f s a = .ok s' → P s') ∧ (∀ s', f s a = .error s' → P s')) :
    ∀ s, P s →
      (∀ s', xs.foldlM f s = .ok s' → P s') ∧
      (∀ s', xs.foldlM f s = .error s' → P s') := by
  induction xs with
  | nil =>
    intro s hs
    constructor
    · intro s' h'
      simp only [List.foldlM_nil] at h'
      cases h'
      exact hs
    · intro s' h'
      simp only [List.foldlM_nil] at h'
      cases h'
  | cons x xs ih =>
    intro s hs
    have hx := h s x (List.mem_cons_self x xs) hs
    rcases hfx : f s x with e | s1
    · have hPe := hx.2 e hfx
      constructor
      · intro s' h'
        rw [List.foldlM_cons, hfx] at h'
        cases h'
      · intro s' h'
        rw [List.foldlM_cons, hfx] at h'
        cases h'
        exact hPe
    · have hP1 := hx.1 s1 hfx
      have hrest := ih (fun s a ha hPs => h s a (List.mem_cons_of_mem x ha) hPs) s1 hP1
      constructor
      · intro s' h'
        rw [List.foldlM_cons, hfx] at h'
        exact hrest.1 s' h'
      · intro s' h'
        rw [List.foldlM_cons, hfx] at h'
        exact hrest.2 s' h'

lemma ScanInv_create (db : DBState) (scope : List ℤ) (st st' : ScanState)
    (kid : ℤ) (iid : String) (conf : Confirmation)
    (hkid : kid ∈ scope) (hP : ScanInv db scope st)
    (hnp : (kid, iid) ∉ st.pending)
    (hck : conf.kitchen_id = kid) (hci : conf.item_id = iid)
    (hcs : conf.status = "pending")
    (hpend : st'.pending = st.pending ++ [(kid, iid)])
    (hnew : st'.newConfs = st.newConfs ++ [conf]) :
    ScanInv db scope st' := by
  refine ⟨?_, ?_, ?_⟩
  · intro c hc h1 h2
    rw [hpend]
    exact List.mem_append_left _ (hP.1 c hc h1 h2)
  · intro c hc
    rw [hnew] at hc
    rcases List.mem_append.mp hc with hc | hc
    · rcases hP.2.1 c hc with ⟨hm, hs⟩
      exact ⟨hpend ▸ List.mem_append_left _ hm, hs⟩
    · simp only [List.mem_singleton] at hc
      subst hc
      refine ⟨?_, hcs⟩
      rw [hpend, hck, hci]
      exact List.mem_append_right _ (by simp)
  · rw [hnew, ← List.append_assoc, pendingKeys_append]
    have hone : pendingKeys [conf] = [(kid, iid)] := by
      simp [pendingKeys, List.filter, hcs, hck, hci]
    rw [hone]
    have hX : (pendingKeys (db.confirmations ++ st.newConfs)).Nodup := hP.2.2
    have hk : (kid, iid) ∉ pendingKeys (db.confirmations ++ st.newConfs) := by
      intro hmem
      rcases (mem_pendingKeys _ _).mp hmem with ⟨c, hc, hst, hkey⟩
      rcases List.mem_append.mp hc with hc | hc
      · by_cases hsc : c.kitchen_id ∈ scope
        · have hm := hP.1 c hc hst hsc
          rw [← hkey] at hm
          exact hnp hm
        · have hck2 : c.kitchen_id = kid := by
            have := congrArg Prod.fst hkey
            simpa using this.symm
          exact hsc (hck2 ▸ hkid)
      · have hm := (hP.2.1 c hc).1
        rw [← hkey] at hm
        exact hnp hm
    exact ((List.perm_append_singleton _ _).nodup_iff).mpr (List.nodup_cons.mpr ⟨hk, hX⟩)

lemma stepGroup_inv (db : DBState) (scope : List ℤ)
    (patterns : List Pattern) (bs : List (String × ℤ)) (now : ℚ)
    (fp fc : ℤ → String → Option String) (kid : ℤ) (kname : String)
    (st : ScanState) (g : String × List InvItem)
    (hkid : kid ∈ scope) (hP : ScanInv db scope st) :
    (∀ st', stepGroup patterns bs now fp fc kid kname st g = .ok st' →
      ScanInv db scope st') ∧
    (∀ st', stepGroup patterns bs now fp fc kid kname st g = .error st' →
      ScanInv db scope st') := by
  have hC : ∀ (st' : ScanState), st'.pending = st.pending →
      st'.newConfs = st.newConfs → ScanInv db scope st' :=
    fun st' h1 h2 => ScanInv_congr db scope st st' hP h1 h2
  rcases hl : List.insertionSort itemLe g.2 with _ | ⟨o, tail⟩
  · constructor
    · intro st' h'
      simp only [stepGroup, hl, List.head?] at h'
      cases h'
      exact hC _ rfl rfl
    · intro st' h'
      simp only [stepGroup, hl, List.head?] at h'
      cases h'
  · rcases ht : o.added_at with _ | t
    · constructor
      · intro st' h'
        simp only [stepGroup, hl, ht, List.head?] at h'
        cases h'
      · intro st' h'
        simp only [stepGroup, hl, ht, List.head?] at h'
        cases h'
        exact hC _ rfl rfl
    · rcases hfp : fp kid g.1 with _ | msg
      · constructor
        · intro st' h'
          simp only [stepGroup, hl, ht, hfp, List.head?] at h'
          split at h'
          · split at h'
            · cases h'
              exact hC _ rfl rfl
            · rename_i hnp
              split at h'
              · cases h'
                exact hC _ rfl rfl
              · cases h'
                exact ScanInv_create db scope st _ kid o.item_id _ hkid hP hnp
                  rfl rfl rfl rfl rfl
          · cases h'
            exact hC _ rfl rfl
        · intro st' h'
          simp only [stepGroup, hl, ht, hfp, List.head?] at h'
          split at h'
          · split at h'
            · cases h'
            · split at h'
              · cases h'
              · cases h'
          · cases h'
      · constructor
        · intro st' h'
          simp only [stepGroup, hl, ht, hfp, List.head?] at h'
          cases h'
        · intro st' h'
          simp only [stepGroup, hl, ht, hfp, List.head?] at h'
          cases h'
          exact hC _ rfl rfl

lemma stepKitchen_inv (db : DBState) (scope : List ℤ) (now : ℚ)
    (fp fc : ℤ → String → Option String) (st : ScanState) (k : KitchenRec)
    (hkid : k.id ∈ scope) (hP : ScanInv db scope st) :
    (∀ st', stepKitchen db now fp fc st k = .ok st' → ScanInv db scope st') ∧
    (∀ st', stepKitchen db now fp fc st k = .error st' → ScanInv db scope st') := by
  simp only [stepKitchen]
  exact foldlM_except_inv (ScanInv db scope) _ _
    (fun s g _ hPs => stepGroup_inv db scope db.patterns db.baselines now fp fc
      k.id (if k.kitchen_name = "" then "Unknown" else k.kitchen_name) s g hkid hPs)
    _ (ScanInv_congr db scope st _ hP rfl rfl)

lemma initialScanState_inv (db : DBState) (h : atMostOnePending db) :
    ScanInv db ((kitchensWithItems db).map (fun k => k.id))
      (initialScanState db ((kitchensWithItems db).map (fun k => k.id))) := by
  refine ⟨?_, ?_, ?_⟩
  · intro c hc h1 h2
    exact List.mem_map.mpr ⟨c, List.mem_filter.mpr ⟨hc, by simp [h1, h2]⟩, rfl⟩
  · intro c hc
    simp [initialScanState] at hc
  · simp only [initialScanState, List.append_nil]
    exact h

/-- A kitchen whose single milk item is 20 days old against a 14-day
default prediction (C6 inputs). -/
def c6db : DBState :=
  { kitchens := [{ id := 1, host_id := 7, kitchen_name := "Home" }]
    members := []
    items := [{ kitchen_id := 1, item_id := "i1", name := "Milk",
                quantity := 1, unit := "count", added_at := some 0 }]
    patterns := []
    events := []
    confirmations := []
    shopping := []
    baselines := [] }

/-- C6. A scan preserves the invariant that at most one pending
confirmation exists per `(kitchen, item)` pair — the prefetched pending
lookup is checked before every creation and extended immediately after —
and, concretely, scanning `c6db` twice in succession yields exactly one
pending confirmation for the milk item: the second scan creates nothing
and counts it as skipped. -/
theorem claim6_at_most_one_pending :
    (∀ (db : DBState) (now : ℚ) (fp fc : ℤ → String → Option String),
      atMostOnePending db → atMostOnePending (scanDB db now fp fc)) ∧
    pendingKeys (scanDB c6db 20 noFault noFault).confirmations = [(1, "i1")] ∧
    (scanDB (scanDB c6db 20 noFault noFault) 20 noFault noFault).confirmations =
      (scanDB c6db 20 noFault noFault).confirmations ∧
    (check_and_deplete_items (scanDB c6db 20 noFault noFault) 20 noFault
      noFault).confirmations_skipped = 1 ∧
    (check_and_deplete_items (scanDB c6db 20 noFault noFault) 20 noFault
      noFault).confirmations_created = 0 := by
  refine ⟨?_, by decide, by decide, by decide, by decide⟩
  intro db now fp fc h
  have hinit := initialScanState_inv db h
  have hfold := foldlM_except_inv
    (ScanInv db ((kitchensWithItems db).map (fun k => k.id)))
    (stepKitchen db now fp fc) (kitchensWithItems db)
    (fun s k hk hPs => stepKitchen_inv db _ now fp fc s k
      (List.mem_map_of_mem _ hk) hPs)
    (initialScanState db ((kitchensWithItems db).map (fun k => k.id))) hinit
  have hinv : ScanInv db ((kitchensWithItems db).map (fun k => k.id))
      (check_and_deplete_items db now fp fc) := by
    unfold check_and_deplete_items scanBody
    rcases hfd : (kitchensWithItems db).foldlM (stepKitchen db now fp fc)
        (initialScanState db ((kitchensWithItems db).map (fun k => k.id))) with st | st
    · rw [hfd]
      exact hfold.2 st hfd
    · rw [hfd]
      exact hfold.1 st hfd
  exact hinv.2.2

/-- Witness for C6 at a concrete input. -/
theorem claim6_witness :
    atMostOnePending c6db ∧ atMostOnePending (scanDB c6db 20 noFault noFault) :=
  ⟨by unfold atMostOnePending; decide,
   claim6_at_most_one_pending.1 c6db 20 noFault noFault
     (by unfold atMostOnePending; decide)⟩
